import Mathlib

/-!
Verification development for the career-compass frontend client layer
(frontend/src/services/api.ts, frontend/src/context/UserContext.tsx,
frontend/src/hooks/useApi.ts).

The TypeScript source is shallowly embedded: browser-host facilities
(localStorage, fetch, JSON.parse, TextDecoder) are modelled explicitly,
and every stateful operation is written as explicit state passing over a
`World` holding the storage contents, the scripted network responses and
the log of network calls issued so far.
-/

namespace CareerCompass

/-! ### JSON values and JavaScript coercions

`Jsonv` models a parsed JSON value as handed around by the TypeScript
code (which never validates shapes).  `jsTruthy`, `jsString` and field
access model the JavaScript coercions the source relies on
(`errorData.detail || fallback`, `localStorage.setItem` stringification,
`if (token)` truthiness). -/

inductive Jsonv where
  | null : Jsonv
  | bool (b : Bool) : Jsonv
  | num (n : Int) : Jsonv
  | str (s : String) : Jsonv
  | arr (elems : List Jsonv) : Jsonv
  | obj (fields : List (String × Jsonv)) : Jsonv

mutual

/-- Structural equality test on JSON values. -/
def Jsonv.beq : Jsonv → Jsonv → Bool
  | Jsonv.null, Jsonv.null => true
  | Jsonv.bool a, Jsonv.bool b => a == b
  | Jsonv.num a, Jsonv.num b => a == b
  | Jsonv.str a, Jsonv.str b => a == b
  | Jsonv.arr a, Jsonv.arr b => Jsonv.beqList a b
  | Jsonv.obj a, Jsonv.obj b => Jsonv.beqFields a b
  | _, _ => false

def Jsonv.beqList : List Jsonv → List Jsonv → Bool
  | [], [] => true
  | x :: xs, y :: ys => Jsonv.beq x y && Jsonv.beqList xs ys
  | _, _ => false

def Jsonv.beqFields : List (String × Jsonv) → List (String × Jsonv) → Bool
  | [], [] => true
  | (k1, v1) :: xs, (k2, v2) :: ys => k1 == k2 && Jsonv.beq v1 v2 && Jsonv.beqFields xs ys
  | _, _ => false

end

instance : BEq Jsonv := ⟨Jsonv.beq⟩

/-- JavaScript truthiness of a JSON value. -/
def jsTruthy : Jsonv → Bool
  | Jsonv.null => false
  | Jsonv.bool b => b
  | Jsonv.num n => n != 0
  | Jsonv.str s => s != ""
  | Jsonv.arr _ => true
  | Jsonv.obj _ => true

mutual

/-- JavaScript `String(v)` coercion of a JSON value. -/
def jsString : Jsonv → String
  | Jsonv.null => "null"
  | Jsonv.bool b => cond b "true" "false"
  | Jsonv.num n => toString n
  | Jsonv.str s => s
  | Jsonv.arr l => jsArrString l
  | Jsonv.obj _ => "[object Object]"

/-- JavaScript array-to-string join with commas; null elements print empty. -/
def jsArrString : List Jsonv → String
  | [] => ""
  | [Jsonv.null] => ""
  | [x] => jsString x
  | Jsonv.null :: y :: t => "," ++ jsArrString (y :: t)
  | x :: y :: t => jsString x ++ "," ++ jsArrString (y :: t)

end

/-- Property access `v.k` on a parsed JSON value: a field of an object,
`undefined` (here `none`) otherwise. -/
def getField (v : Jsonv) (k : String) : Option Jsonv :=
  match v with
  | Jsonv.obj fs => (fs.find? (fun p => p.1 == k)).map (fun p => p.2)
  | _ => none

/-- Read field `k` and coerce it to a string the way
`localStorage.setItem` would (`String(undefined) = "undefined"`). -/
def jsFieldString (v : Jsonv) (k : String) : String :=
  match getField v k with
  | some d => jsString d
  | none => "undefined"

/-- Read a numeric field, defaulting to 0 (only used for the unread
`expires_in` slot of `AuthTokens`). -/
def jsFieldInt (v : Jsonv) (k : String) : Int :=
  match getField v k with
  | some (Jsonv.num n) => n
  | _ => 0

/-! ### localStorage and the token store (api.ts lines 98-118) -/

/-- `localStorage` contents: an association list of key/value strings. -/
abbrev Storage := List (String × String)

/-- `localStorage.getItem`. -/
def getItem (st : Storage) (k : String) : Option String :=
  (st.find? (fun p => p.1 == k)).map (fun p => p.2)

/-- `localStorage.setItem`: overwrite the binding for `k`. -/
def setItem (st : Storage) (k v : String) : Storage :=
  (k, v) :: st.filter (fun p => p.1 != k)

/-- `localStorage.removeItem`. -/
def removeItem (st : Storage) (k : String) : Storage :=
  st.filter (fun p => p.1 != k)

def ACCESS_TOKEN_KEY : String := "career_compass_access_token"

def REFRESH_TOKEN_KEY : String := "career_compass_refresh_token"

/-- `AuthTokens` as declared in api.ts. -/
structure AuthTokens where
  access_token : String
  refresh_token : String
  token_type : String
  expires_in : Int
deriving DecidableEq

def getAccessToken (st : Storage) : Option String :=
  getItem st ACCESS_TOKEN_KEY

def getRefreshToken (st : Storage) : Option String :=
  getItem st REFRESH_TOKEN_KEY

def setTokens (st : Storage) (t : AuthTokens) : Storage :=
  setItem (setItem st ACCESS_TOKEN_KEY t.access_token) REFRESH_TOKEN_KEY t.refresh_token

def clearTokens (st : Storage) : Storage :=
  removeItem (removeItem st ACCESS_TOKEN_KEY) REFRESH_TOKEN_KEY

/-- JavaScript truthiness of a nullable string (`!!getAccessToken()`). -/
def truthyStr : Option String → Bool
  | none => false
  | some s => s != ""

/-- The JS pattern `const x = expr; if (x) ...`: keep the string only
when it is truthy. -/
def truthyTok : Option String → Option String
  | none => none
  | some s => if s = "" then none else some s

/-- api.ts `isAuthenticated`. -/
def isAuthenticated (st : Storage) : Bool :=
  truthyStr (getAccessToken st)

/-! ### The network model

`fetch` is modelled by a script of `NetResult`s consumed in order; each
issued call is appended to a log.  A `netErr msg` entry is a rejected
fetch promise carrying the host error message; a `resp` entry carries
the HTTP status and the body as parsed JSON (`none` when the body is not
parseable JSON, in which case `response.json()` rejects). -/

structure Response where
  status : Nat
  json : Option Jsonv

/-- `response.ok`: status in the 200-299 range. -/
def Response.ok (r : Response) : Bool :=
  decide (200 ≤ r.status) && decide (r.status ≤ 299)

inductive NetResult where
  | resp (r : Response) : NetResult
  | netErr (msg : String) : NetResult

/-- One issued network call: the url and the bearer token attached to
its Authorization header (none when no token was attached). -/
structure Call where
  url : String
  bearer : Option String

structure World where
  store : Storage
  net : List NetResult
  calls : List Call

/-- Issue one fetch: consume the next scripted result and log the call.
An exhausted script behaves as a network failure. -/
def fetchStep (w : World) (url : String) (bearer : Option String) : NetResult × World :=
  match w.net with
  | [] => (NetResult.netErr "Failed to fetch",
      { w with calls := w.calls ++ [{ url := url, bearer := bearer }] })
  | n :: rest => (n,
      { store := w.store, net := rest, calls := w.calls ++ [{ url := url, bearer := bearer }] })

/-- Errors escaping an api.ts operation: an `ApiError` (status and
message), or some other thrown `Error` (a fetch rejection or a JSON
`SyntaxError`) carrying its host message. -/
inductive ReqError where
  | api (status : Nat) (message : String) : ReqError
  | thrown (message : String) : ReqError
deriving DecidableEq

/-- Host message of a `SyntaxError` from `response.json()` on a body
that is not valid JSON. -/
def syntaxErrMsg : String := "Unexpected end of JSON input"

/-- The message carried by a thrown error (`e.message`). -/
def reqErrMsg : ReqError → String
  | ReqError.api _ m => m
  | ReqError.thrown m => m

/-- `await response.json().catch(() => ({ detail: catchDetail }))`. -/
def errBody (r : Response) (catchDetail : String) : Jsonv :=
  match r.json with
  | some v => v
  | none => Jsonv.obj [("detail", Jsonv.str catchDetail)]

/-- `errorData.detail || fallback`. -/
def detailOr (body : Jsonv) (fallback : String) : String :=
  match getField body "detail" with
  | some d => if jsTruthy d then jsString d else fallback
  | none => fallback

/-- Reading a token response: `const tokens: AuthTokens = await
response.json()` is an unvalidated cast; only the fields later read by
`setTokens` matter, coerced to strings the way storage writes do. -/
def tokensOfJson (v : Jsonv) : AuthTokens :=
  { access_token := jsFieldString v "access_token"
    refresh_token := jsFieldString v "refresh_token"
    token_type := jsFieldString v "token_type"
    expires_in := jsFieldInt v "expires_in" }

/-! ### apiRequest and tryRefreshToken (api.ts lines 124-199) -/

/-- api.ts `tryRefreshToken`: POST /auth/refresh with the refresh token
as bearer; on an OK response store the returned tokens and report true;
report false on a missing refresh token, a non-OK response, or any
thrown error (the try/catch swallows fetch and json rejections). -/
def tryRefreshToken (w : World) : Bool × World :=
  match truthyTok (getRefreshToken w.store) with
  | none => (false, w)
  | some rt =>
    match fetchStep w "/auth/refresh" (some rt) with
    | (NetResult.netErr _, w1) => (false, w1)
    | (NetResult.resp r, w1) =>
      if r.ok then
        match r.json with
        | some v => (true, { w1 with store := setTokens w1.store (tokensOfJson v) })
        | none => (false, w1)
      else (false, w1)

/-- Shared response handling of api.ts (both the plain and the retried
request): non-OK throws `ApiError(status, detail || 'Request failed')`;
an OK response returns its JSON body, a rejected `json()` propagates. -/
def handleResp : NetResult → Except ReqError Jsonv
  | NetResult.netErr m => Except.error (ReqError.thrown m)
  | NetResult.resp r =>
    if r.ok then
      match r.json with
      | some v => Except.ok v
      | none => Except.error (ReqError.thrown syntaxErrMsg)
    else
      Except.error (ReqError.api r.status (detailOr (errBody r "Unknown error") "Request failed"))

/-- api.ts `apiRequest`: attach the access token when truthy (failing
immediately when absent and `requireAuth`), issue the request, and on a
401 with a token attached run exactly one refresh: on refresh success
retry once with the freshly stored token and return that outcome; on
refresh failure clear both tokens and fail with the session-expired
error. -/
def apiRequest (endpoint : String) (requireAuth : Bool) (w : World) :
    Except ReqError Jsonv × World :=
  match truthyTok (getAccessToken w.store) with
  | none =>
    if requireAuth then
      (Except.error (ReqError.api 401 "Authentication required"), w)
    else
      match fetchStep w endpoint none with
      | (n, w1) => (handleResp n, w1)
  | some tok =>
    match fetchStep w endpoint (some tok) with
    | (NetResult.netErr m, w1) => (Except.error (ReqError.thrown m), w1)
    | (NetResult.resp r, w1) =>
      if r.status = 401 then
        match tryRefreshToken w1 with
        | (true, w2) =>
          match fetchStep w2 endpoint (getAccessToken w2.store) with
          | (n2, w3) => (handleResp n2, w3)
        | (false, w2) =>
          (Except.error (ReqError.api 401 "Session expired. Please login again."),
           { w2 with store := clearTokens w2.store })
      else (handleResp (NetResult.resp r), w1)

/-! ### Authentication and resume API calls (api.ts lines 205-303) -/

/-- api.ts `login`: POST /auth/login (no bearer header); non-OK throws
`ApiError(status, detail || 'Invalid email or password')` with catch
default detail 'Login failed'; OK stores and returns the tokens. -/
def loginApi (w : World) : Except ReqError AuthTokens × World :=
  match fetchStep w "/auth/login" none with
  | (NetResult.netErr m, w1) => (Except.error (ReqError.thrown m), w1)
  | (NetResult.resp r, w1) =>
    if r.ok then
      match r.json with
      | some v =>
        (Except.ok (tokensOfJson v), { w1 with store := setTokens w1.store (tokensOfJson v) })
      | none => (Except.error (ReqError.thrown syntaxErrMsg), w1)
    else
      (Except.error (ReqError.api r.status (detailOr (errBody r "Login failed") "Invalid email or password")), w1)

/-- api.ts `register`: POST /auth/register; like `loginApi` with the
registration messages. -/
def registerApi (w : World) : Except ReqError AuthTokens × World :=
  match fetchStep w "/auth/register" none with
  | (NetResult.netErr m, w1) => (Except.error (ReqError.thrown m), w1)
  | (NetResult.resp r, w1) =>
    if r.ok then
      match r.json with
      | some v =>
        (Except.ok (tokensOfJson v), { w1 with store := setTokens w1.store (tokensOfJson v) })
      | none => (Except.error (ReqError.thrown syntaxErrMsg), w1)
    else
      (Except.error (ReqError.api r.status (detailOr (errBody r "Registration failed") "Registration failed")), w1)

/-- api.ts `logout`: synchronously clear both tokens; nothing else. -/
def logoutApi (st : Storage) : Storage :=
  clearTokens st

/-- api.ts `getCurrentUser`: `apiRequest('/auth/me', {}, true)`. -/
def getCurrentUser (w : World) : Except ReqError Jsonv × World :=
  apiRequest "/auth/me" true w

/-- api.ts `uploadResume`: POST /resume/process with `stream=false`,
bearer attached when truthy; non-OK throws
`ApiError(status, detail || 'Upload failed')` with catch default detail
'Upload failed'; OK resolves with the JSON body. -/
def uploadResume (userId : Nat) (w : World) : Except ReqError Jsonv × World :=
  let url := "/resume/process?user_id=" ++ toString userId ++ "&stream=false"
  match fetchStep w url (truthyTok (getAccessToken w.store)) with
  | (NetResult.netErr m, w1) => (Except.error (ReqError.thrown m), w1)
  | (NetResult.resp r, w1) =>
    if r.ok then
      match r.json with
      | some v => (Except.ok v, w1)
      | none => (Except.error (ReqError.thrown syntaxErrMsg), w1)
    else
      (Except.error (ReqError.api r.status (detailOr (errBody r "Upload failed") "Upload failed")), w1)

/-! ### Session context (UserContext.tsx) -/

/-- The `UserProvider` React state.  The user is kept as the raw JSON
returned by /auth/me (the source performs no validation). -/
structure CtxState where
  user : Option Jsonv
  isLoading : Bool
  error : Option String
  hasResume : Bool
  isAuthenticated : Bool

/-- UserContext.tsx `login`: set loading, clear the error, call the api
login then fetch the current user; on success install the user and the
authenticated flag; any failure lands in the catch (set the error
message, rethrow); the finally clears the loading flag. -/
def contextLogin (ctx : CtxState) (w : World) : Except ReqError Unit × CtxState × World :=
  let ctx1 : CtxState := { ctx with isLoading := true, error := none }
  match loginApi w with
  | (Except.error e, w1) =>
    (Except.error e, { ctx1 with error := some (reqErrMsg e), isLoading := false }, w1)
  | (Except.ok _, w1) =>
    match getCurrentUser w1 with
    | (Except.error e, w2) =>
      (Except.error e, { ctx1 with error := some (reqErrMsg e), isLoading := false }, w2)
    | (Except.ok userData, w2) =>
      (Except.ok (),
       { ctx1 with user := some userData, isAuthenticated := true, isLoading := false }, w2)

/-- UserContext.tsx `register`: same shape as `contextLogin` over the
api register call. -/
def contextRegister (ctx : CtxState) (w : World) : Except ReqError Unit × CtxState × World :=
  let ctx1 : CtxState := { ctx with isLoading := true, error := none }
  match registerApi w with
  | (Except.error e, w1) =>
    (Except.error e, { ctx1 with error := some (reqErrMsg e), isLoading := false }, w1)
  | (Except.ok _, w1) =>
    match getCurrentUser w1 with
    | (Except.error e, w2) =>
      (Except.error e, { ctx1 with error := some (reqErrMsg e), isLoading := false }, w2)
    | (Except.ok userData, w2) =>
      (Except.ok (),
       { ctx1 with user := some userData, isAuthenticated := true, isLoading := false }, w2)

/-- UserContext.tsx `logout`: call the api logout (clear tokens) and
reset user, hasResume and the authenticated flag; no network call. -/
def contextLogout (ctx : CtxState) (w : World) : CtxState × World :=
  ({ ctx with user := none, hasResume := false, isAuthenticated := false },
   { w with store := logoutApi w.store })

/-! ### Query cache and invalidation (useApi.ts) -/

/-- One part of a React Query key (strings, numbers, or an options
object). -/
inductive KeyPart where
  | str (s : String) : KeyPart
  | num (n : Nat) : KeyPart
  | json (v : Jsonv) : KeyPart

def KeyPart.beq : KeyPart → KeyPart → Bool
  | KeyPart.str a, KeyPart.str b => a == b
  | KeyPart.num a, KeyPart.num b => a == b
  | KeyPart.json a, KeyPart.json b => Jsonv.beq a b
  | _, _ => false

instance : BEq KeyPart := ⟨KeyPart.beq⟩

abbrev QueryKey := List KeyPart

/-- React Query key matching: `invalidateQueries \x7b queryKey \x7d`
matches every cache entry whose key begins with the given key. -/
def keyMatches : QueryKey → QueryKey → Bool
  | [], _ => true
  | _ :: _, [] => false
  | p :: ps, q :: qs => p == q && keyMatches ps qs

structure CacheEntry where
  key : QueryKey
  invalidated : Bool

abbrev QueryCache := List CacheEntry

/-- The per-entry effect of `invalidateQueries`. -/
def invUpd (k : QueryKey) (e : CacheEntry) : CacheEntry :=
  if keyMatches k e.key then { e with invalidated := true } else e

/-- `queryClient.invalidateQueries \x7b queryKey := k \x7d`. -/
def invalidateQueries (k : QueryKey) (c : QueryCache) : QueryCache :=
  c.map (invUpd k)

/-- useApi.ts `useResumeUpload.onSuccess`: set hasResume and invalidate
the recommendations, skills, analysis and roadmap prefixes, in source
order. -/
def uploadOnSuccess (ctx : CtxState) (c : QueryCache) : CtxState × QueryCache :=
  ({ ctx with hasResume := true },
   invalidateQueries [KeyPart.str "roadmap"]
     (invalidateQueries [KeyPart.str "analysis"]
       (invalidateQueries [KeyPart.str "skills"]
         (invalidateQueries [KeyPart.str "recommendations"] c))))

/-! ### NDJSON streaming (api.ts `processResume`, lines 339-361)

Chunks are modelled as text (`List Char`): `TextDecoder.decode` with
`stream := true` guarantees that the concatenation of the decoded
chunks is the decoded concatenation, so byte-level boundaries reduce to
arbitrary text boundaries.  `JSON.parse` is host-library behaviour and
is a parameter `parse`; a `none` result models a thrown `SyntaxError`.
The collected `events` list is the sequence of `onProgress` invocations
and `warnings` the sequence of `console.error` logs. -/

structure StreamOut where
  events : List Jsonv
  warnings : List (List Char)

/-- JavaScript whitespace for `String.prototype.trim` (the characters
that can occur in a line here). -/
def isJsWs (c : Char) : Bool :=
  c = ' ' || c = '\t' || c = '\n' || c = '\r' || c = '\x0b' || c = '\x0c'

/-- `line.trim()`. -/
def trimJs (s : List Char) : List Char :=
  ((s.dropWhile isJsWs).reverse.dropWhile isJsWs).reverse

/-- Prepend a character onto the front of a split: onto the first
complete line when there is one, else onto the remainder. -/
def consLine (c : Char) : List (List Char) × List Char → List (List Char) × List Char
  | ([], r) => ([], c :: r)
  | (l :: t, r) => ((c :: l) :: t, r)

/-- `buffer.split('\n')` followed by `buffer = lines.pop() || ''`:
returns the complete (newline-terminated) lines and the retained
remainder after the last newline. -/
def splitLines : List Char → List (List Char) × List Char
  | [] => ([], [])
  | c :: cs =>
    if c = '\n' then ([] :: (splitLines cs).1, (splitLines cs).2)
    else consLine c (splitLines cs)

/-- The loop body for one complete line: skip lines that are blank
after trimming; parse the raw line, forwarding the event to the
progress callback, or log a warning on a parse failure. -/
def handleLine (parse : List Char → Option Jsonv) (out : StreamOut) (line : List Char) :
    StreamOut :=
  if trimJs line = [] then out
  else
    match parse line with
    | some e => { out with events := out.events ++ [e] }
    | none => { out with warnings := out.warnings ++ [line] }

/-- One iteration of the read loop: append the decoded chunk to the
buffer, split off the complete lines, process them, retain the
remainder. -/
def procChunk (parse : List Char → Option Jsonv) (st : StreamOut × List Char)
    (chunk : List Char) : StreamOut × List Char :=
  (((splitLines (st.2 ++ chunk)).1).foldl (handleLine parse) st.1,
   (splitLines (st.2 ++ chunk)).2)

/-- The whole read loop of `processResume`: fold the chunks through the
line reassembly buffer; when the stream ends the loop breaks and the
remaining buffer is dropped. -/
def runStream (parse : List Char → Option Jsonv) (chunks : List (List Char)) : StreamOut :=
  (chunks.foldl (procChunk parse) ({ events := [], warnings := [] }, [])).1

/-- NDJSON encoding of a list of lines, each newline-terminated. -/
def encodeLines (ls : List (List Char)) : List Char :=
  (ls.map (fun l => l ++ ['\n'])).flatten

/-! ### Storage lemmas -/

theorem find?_filter_of_imp {α : Type} (p q : α → Bool) (l : List α)
    (h : ∀ x, p x = true → q x = true) :
    (l.filter q).find? p = l.find? p := by
  induction l with
  | nil => rfl
  | cons a l ih =>
    cases hq : q a with
    | true =>
      cases hp : p a with
      | true => simp [List.filter_cons, hq, List.find?, hp]
      | false => simp [List.filter_cons, hq, List.find?, hp, ih]
    | false =>
      have hp : p a = false := by
        cases hpa : p a
        · rfl
        · exact absurd (h a hpa) (by simp [hq])
      simp [List.filter_cons, hq, List.find?, hp, ih]

theorem getItem_setItem_self (st : Storage) (k v : String) :
    getItem (setItem st k v) k = some v := by
  simp [getItem, setItem, List.find?]

theorem getItem_setItem_ne (st : Storage) (k v k' : String) (h : k' ≠ k) :
    getItem (setItem st k v) k' = getItem st k' := by
  unfold getItem setItem
  have hfil : ∀ x : String × String, (x.1 == k') = true → (x.1 != k) = true := by
    intro x hx
    simp at hx ⊢
    rw [hx]
    exact h
  rw [List.find?_cons_of_neg _ (by simpa using Ne.symm h), find?_filter_of_imp _ _ _ hfil]

theorem getItem_removeItem_self (st : Storage) (k : String) :
    getItem (removeItem st k) k = none := by
  unfold getItem removeItem
  rw [List.find?_eq_none.mpr]
  · rfl
  · intro x hx
    rcases List.mem_filter.mp hx with ⟨-, hne⟩
    simp at hne ⊢
    exact hne

theorem getItem_removeItem_ne (st : Storage) (k k' : String) (h : k' ≠ k) :
    getItem (removeItem st k) k' = getItem st k' := by
  unfold getItem removeItem
  have hfil : ∀ x : String × String, (x.1 == k') = true → (x.1 != k) = true := by
    intro x hx
    simp at hx ⊢
    rw [hx]
    exact h
  rw [find?_filter_of_imp _ _ _ hfil]

theorem access_ne_refresh : ACCESS_TOKEN_KEY ≠ REFRESH_TOKEN_KEY := by decide

theorem getAccessToken_setTokens (st : Storage) (t : AuthTokens) :
    getAccessToken (setTokens st t) = some t.access_token := by
  unfold getAccessToken setTokens
  rw [getItem_setItem_ne _ _ _ _ access_ne_refresh, getItem_setItem_self]

theorem getRefreshToken_setTokens (st : Storage) (t : AuthTokens) :
    getRefreshToken (setTokens st t) = some t.refresh_token := by
  unfold getRefreshToken setTokens
  rw [getItem_setItem_self]

theorem getAccessToken_clearTokens (st : Storage) :
    getAccessToken (clearTokens st) = none := by
  unfold getAccessToken clearTokens
  rw [getItem_removeItem_ne _ _ _ access_ne_refresh, getItem_removeItem_self]

theorem getRefreshToken_clearTokens (st : Storage) :
    getRefreshToken (clearTokens st) = none := by
  unfold getRefreshToken clearTokens
  rw [getItem_removeItem_self]

/-! ### C7: token store round-trip -/

/-- C7: for every token pair, `set(tokens)` followed by `get` for each
token kind returns exactly the access and refresh strings that were
stored, and `clear()` followed by `get` returns null for both kinds. -/
theorem tokenStore_roundtrip (st st' : Storage) (t : AuthTokens) :
    getAccessToken (setTokens st t) = some t.access_token
    ∧ getRefreshToken (setTokens st t) = some t.refresh_token
    ∧ getAccessToken (clearTokens st') = none
    ∧ getRefreshToken (clearTokens st') = none :=
  ⟨getAccessToken_setTokens st t, getRefreshToken_setTokens st t,
   getAccessToken_clearTokens st', getRefreshToken_clearTokens st'⟩

/-! ### C8: logout -/

/-- C8: `logout()` always succeeds without issuing any network call
(the call log and the response script are untouched), and immediately
afterward `isAuthenticated()` is false, both stored tokens are absent
from storage, and the in-memory session user is null. -/
theorem logout_clears_session (ctx : CtxState) (w : World) :
    isAuthenticated (contextLogout ctx w).2.store = false
    ∧ getAccessToken (contextLogout ctx w).2.store = none
    ∧ getRefreshToken (contextLogout ctx w).2.store = none
    ∧ (contextLogout ctx w).1.user = none
    ∧ (contextLogout ctx w).1.isAuthenticated = false
    ∧ (contextLogout ctx w).2.calls = w.calls
    ∧ (contextLogout ctx w).2.net = w.net := by
  refine ⟨?_, ?_, ?_, rfl, rfl, rfl, rfl⟩
  · unfold isAuthenticated
    rw [show (contextLogout ctx w).2.store = clearTokens w.store from rfl,
      getAccessToken_clearTokens]
    rfl
  · exact getAccessToken_clearTokens w.store
  · exact getRefreshToken_clearTokens w.store

/-! ### C4: requireAuth with no stored token -/

/-- C4: a request issued with `requireAuth = true` while no access token
is stored fails with the authentication-required error and leaves the
world untouched: no network call is issued and the script is not
consumed. -/
theorem requireAuth_no_token_fails_without_network (endpoint : String) (w : World)
    (h : getAccessToken w.store = none) :
    apiRequest endpoint true w
      = (Except.error (ReqError.api 401 "Authentication required"), w) := by
  unfold apiRequest
  rw [h]
  rfl

/-- Witness for C4 at the empty world. -/
theorem requireAuth_no_token_fails_without_network_witness :
    getAccessToken ([] : Storage) = none
    ∧ apiRequest "/auth/me" true { store := [], net := [], calls := [] }
        = (Except.error (ReqError.api 401 "Authentication required"),
           { store := [], net := [], calls := [] }) :=
  ⟨rfl, requireAuth_no_token_fails_without_network "/auth/me"
    { store := [], net := [], calls := [] } rfl⟩

/-! ### The 401-refresh path of apiRequest -/

/-- Full evaluation of `apiRequest` on the path: stored truthy access
and refresh tokens, a 401 first response, a refresh response that is OK
with a parseable body.  Exactly three calls are issued (the original,
one refresh, one retry with the freshly stored access token), the rest
of the script is untouched, and the overall outcome is the handled
retried response. -/
theorem apiRequest_401_refresh_ok
    (endpoint : String) (requireAuth : Bool) (st : Storage) (tok rt : String)
    (hacc : getAccessToken st = some tok) (htok : tok ≠ "")
    (href : getRefreshToken st = some rt) (hrt : rt ≠ "")
    (r1 : Response) (h1 : r1.status = 401)
    (r2 : Response) (h2ok : r2.ok = true) (tv : Jsonv) (h2j : r2.json = some tv)
    (n3 : NetResult) (rest : List NetResult) :
    apiRequest endpoint requireAuth
        { store := st, net := [NetResult.resp r1, NetResult.resp r2, n3] ++ rest, calls := [] }
      = (handleResp n3,
         { store := setTokens st (tokensOfJson tv),
           net := rest,
           calls := [{ url := endpoint, bearer := some tok },
                     { url := "/auth/refresh", bearer := some rt },
                     { url := endpoint, bearer := some (tokensOfJson tv).access_token }] }) := by
  unfold apiRequest
  simp [truthyTok, hacc, htok, fetchStep, h1, tryRefreshToken, href, hrt, h2ok, h2j,
    getAccessToken_setTokens]

/-! ### C1: one refresh, one retry, retried outcome is final -/

/-- C1: on a 401 first response with an access token attached and a
successful refresh, exactly one refresh call and exactly one retried
request are issued (the call log is exactly the original call, the
refresh, and the retry with the new access token, and the remaining
response script is untouched), and the final outcome of the operation is
exactly the handled outcome of the retried response. -/
theorem apiRequest_refresh_retry_once
    (endpoint : String) (requireAuth : Bool) (st : Storage) (tok rt : String)
    (hacc : getAccessToken st = some tok) (htok : tok ≠ "")
    (href : getRefreshToken st = some rt) (hrt : rt ≠ "")
    (r1 : Response) (h1 : r1.status = 401)
    (r2 : Response) (h2ok : r2.ok = true) (tv : Jsonv) (h2j : r2.json = some tv)
    (n3 : NetResult) (rest : List NetResult) :
    (apiRequest endpoint requireAuth
        { store := st, net := [NetResult.resp r1, NetResult.resp r2, n3] ++ rest, calls := [] }).1
      = handleResp n3
    ∧ (apiRequest endpoint requireAuth
        { store := st, net := [NetResult.resp r1, NetResult.resp r2, n3] ++ rest, calls := [] }).2.calls
      = [{ url := endpoint, bearer := some tok },
         { url := "/auth/refresh", bearer := some rt },
         { url := endpoint, bearer := some (tokensOfJson tv).access_token }]
    ∧ (apiRequest endpoint requireAuth
        { store := st, net := [NetResult.resp r1, NetResult.resp r2, n3] ++ rest, calls := [] }).2.net
      = rest := by
  rw [apiRequest_401_refresh_ok endpoint requireAuth st tok rt hacc htok href hrt
    r1 h1 r2 h2ok tv h2j n3 rest]
  exact ⟨rfl, rfl, rfl⟩

/-- Concrete storage holding one truthy access and refresh token. -/
def stW : Storage := [(ACCESS_TOKEN_KEY, "T"), (REFRESH_TOKEN_KEY, "R")]

/-- Concrete refresh-response body. -/
def tvW : Jsonv :=
  Jsonv.obj [("access_token", Jsonv.str "T2"), ("refresh_token", Jsonv.str "R2"),
             ("token_type", Jsonv.str "bearer"), ("expires_in", Jsonv.num 3600)]

/-- Witness for C1: a concrete 401/refresh/retry run. -/
theorem apiRequest_refresh_retry_once_witness :
    (apiRequest "/auth/me" true
        { store := stW,
          net := [NetResult.resp { status := 401, json := none },
                  NetResult.resp { status := 200, json := some tvW },
                  NetResult.resp { status := 200, json := some (Jsonv.str "me") }],
          calls := [] }).1
      = handleResp (NetResult.resp { status := 200, json := some (Jsonv.str "me") })
    ∧ (apiRequest "/auth/me" true
        { store := stW,
          net := [NetResult.resp { status := 401, json := none },
                  NetResult.resp { status := 200, json := some tvW },
                  NetResult.resp { status := 200, json := some (Jsonv.str "me") }],
          calls := [] }).2.calls
      = [{ url := "/auth/me", bearer := some "T" },
         { url := "/auth/refresh", bearer := some "R" },
         { url := "/auth/me", bearer := some (tokensOfJson tvW).access_token }]
    ∧ (apiRequest "/auth/me" true
        { store := stW,
          net := [NetResult.resp { status := 401, json := none },
                  NetResult.resp { status := 200, json := some tvW },
                  NetResult.resp { status := 200, json := some (Jsonv.str "me") }],
          calls := [] }).2.net
      = [] := by
  have h := apiRequest_refresh_retry_once "/auth/me" true stW "T" "R" rfl
    (by decide) rfl (by decide)
    { status := 401, json := none } rfl
    { status := 200, json := some tvW } (by decide) tvW rfl
    (NetResult.resp { status := 200, json := some (Jsonv.str "me") }) []
  simpa using h

/-! ### C3: refresh failure clears both tokens -/

theorem tryRefreshToken_fails_of (w : World)
    (h : truthyTok (getRefreshToken w.store) = none
       ∨ (∃ m rest, w.net = NetResult.netErr m :: rest)
       ∨ (∃ r rest, w.net = NetResult.resp r :: rest ∧ r.ok = false)) :
    (tryRefreshToken w).1 = false := by
  rcases h with h | ⟨m, rest, hnet⟩ | ⟨r, rest, hnet, hok⟩
  · simp [tryRefreshToken, h]
  · cases htt : truthyTok (getRefreshToken w.store) with
    | none => simp [tryRefreshToken, htt]
    | some rt => simp [tryRefreshToken, htt, fetchStep, hnet]
  · cases htt : truthyTok (getRefreshToken w.store) with
    | none => simp [tryRefreshToken, htt]
    | some rt => simp [tryRefreshToken, htt, fetchStep, hnet, hok]

/-- C3: on a 401 first response with a token attached, when the refresh
attempt fails (missing refresh token, network error during refresh, or a
non-OK refresh response) the operation fails with the session-expired
error and both tokens are absent from storage afterward. -/
theorem refresh_failure_clears_tokens
    (endpoint : String) (requireAuth : Bool) (st : Storage) (tok : String)
    (hacc : getAccessToken st = some tok) (htok : tok ≠ "")
    (r1 : Response) (h1 : r1.status = 401) (netRest : List NetResult)
    (hfail : truthyTok (getRefreshToken st) = none
       ∨ (∃ m rest, netRest = NetResult.netErr m :: rest)
       ∨ (∃ r rest, netRest = NetResult.resp r :: rest ∧ r.ok = false)) :
    (apiRequest endpoint requireAuth
        { store := st, net := NetResult.resp r1 :: netRest, calls := [] }).1
      = Except.error (ReqError.api 401 "Session expired. Please login again.")
    ∧ getAccessToken (apiRequest endpoint requireAuth
        { store := st, net := NetResult.resp r1 :: netRest, calls := [] }).2.store = none
    ∧ getRefreshToken (apiRequest endpoint requireAuth
        { store := st, net := NetResult.resp r1 :: netRest, calls := [] }).2.store = none := by
  have hrf : (tryRefreshToken
      { store := st, net := netRest,
        calls := [{ url := endpoint, bearer := some tok }] }).1 = false :=
    tryRefreshToken_fails_of _ hfail
  unfold apiRequest
  simp only [truthyTok, hacc, if_neg htok, fetchStep, List.nil_append, h1, if_pos rfl]
  cases htr : tryRefreshToken
      { store := st, net := netRest,
        calls := [{ url := endpoint, bearer := some tok }] } with
  | mk b w2 =>
    rw [htr] at hrf
    simp only at hrf
    subst hrf
    exact ⟨rfl, getAccessToken_clearTokens w2.store, getRefreshToken_clearTokens w2.store⟩

/-- Witness for C3: stored access token, no refresh token. -/
theorem refresh_failure_clears_tokens_witness :
    (apiRequest "/auth/me" true
        { store := [(ACCESS_TOKEN_KEY, "T")],
          net := [NetResult.resp { status := 401, json := none }], calls := [] }).1
      = Except.error (ReqError.api 401 "Session expired. Please login again.")
    ∧ getAccessToken (apiRequest "/auth/me" true
        { store := [(ACCESS_TOKEN_KEY, "T")],
          net := [NetResult.resp { status := 401, json := none }], calls := [] }).2.store = none
    ∧ getRefreshToken (apiRequest "/auth/me" true
        { store := [(ACCESS_TOKEN_KEY, "T")],
          net := [NetResult.resp { status := 401, json := none }], calls := [] }).2.store
      = none :=
  refresh_failure_clears_tokens "/auth/me" true [(ACCESS_TOKEN_KEY, "T")] "T" rfl
    (by decide) { status := 401, json := none } rfl [] (Or.inl rfl)

/-! ### C9: a failed retried request does not clear the tokens -/

/-- C9: when the refresh succeeds but the retried request then fails
with any non-OK status (a second 401 included), the operation fails with
that response's error and storage still holds exactly the tokens
installed by the successful refresh — the retried-request failure clears
nothing. -/
theorem retry_failure_preserves_tokens
    (endpoint : String) (requireAuth : Bool) (st : Storage) (tok rt : String)
    (hacc : getAccessToken st = some tok) (htok : tok ≠ "")
    (href : getRefreshToken st = some rt) (hrt : rt ≠ "")
    (r1 : Response) (h1 : r1.status = 401)
    (r2 : Response) (h2ok : r2.ok = true) (tv : Jsonv) (h2j : r2.json = some tv)
    (r3 : Response) (h3 : r3.ok = false) (rest : List NetResult) :
    (apiRequest endpoint requireAuth
        { store := st,
          net := [NetResult.resp r1, NetResult.resp r2, NetResult.resp r3] ++ rest,
          calls := [] }).1
      = Except.error (ReqError.api r3.status (detailOr (errBody r3 "Unknown error") "Request failed"))
    ∧ (apiRequest endpoint requireAuth
        { store := st,
          net := [NetResult.resp r1, NetResult.resp r2, NetResult.resp r3] ++ rest,
          calls := [] }).2.store
      = setTokens st (tokensOfJson tv)
    ∧ getAccessToken (apiRequest endpoint requireAuth
        { store := st,
          net := [NetResult.resp r1, NetResult.resp r2, NetResult.resp r3] ++ rest,
          calls := [] }).2.store
      = some (tokensOfJson tv).access_token
    ∧ getRefreshToken (apiRequest endpoint requireAuth
        { store := st,
          net := [NetResult.resp r1, NetResult.resp r2, NetResult.resp r3] ++ rest,
          calls := [] }).2.store
      = some (tokensOfJson tv).refresh_token := by
  rw [apiRequest_401_refresh_ok endpoint requireAuth st tok rt hacc htok href hrt
    r1 h1 r2 h2ok tv h2j (NetResult.resp r3) rest]
  refine ⟨?_, rfl, getAccessToken_setTokens _ _, getRefreshToken_setTokens _ _⟩
  simp [handleResp, h3]

/-- Witness for C9: the retried request comes back as a second 401. -/
theorem retry_failure_preserves_tokens_witness :
    (apiRequest "/auth/me" true
        { store := stW,
          net := [NetResult.resp { status := 401, json := none },
                  NetResult.resp { status := 200, json := some tvW },
                  NetResult.resp { status := 401, json := none }],
          calls := [] }).1
      = Except.error (ReqError.api 401 "Unknown error")
    ∧ getAccessToken (apiRequest "/auth/me" true
        { store := stW,
          net := [NetResult.resp { status := 401, json := none },
                  NetResult.resp { status := 200, json := some tvW },
                  NetResult.resp { status := 401, json := none }],
          calls := [] }).2.store
      = some "T2"
    ∧ getRefreshToken (apiRequest "/auth/me" true
        { store := stW,
          net := [NetResult.resp { status := 401, json := none },
                  NetResult.resp { status := 200, json := some tvW },
                  NetResult.resp { status := 401, json := none }],
          calls := [] }).2.store
      = some "R2" := by
  have h := retry_failure_preserves_tokens "/auth/me" true stW "T" "R" rfl
    (by decide) rfl (by decide)
    { status := 401, json := none } rfl
    { status := 200, json := some tvW } (by decide) tvW rfl
    { status := 401, json := none } (by decide) []
  simp only [List.append_nil] at h
  exact ⟨h.1, by rw [h.2.2.1]; rfl, by rw [h.2.2.2]; rfl⟩

/-! ### C5: failed login/register leaves the session anonymous -/

theorem contextLogin_error_state (ctx : CtxState) (w : World) (e : ReqError)
    (h : (contextLogin ctx w).1 = Except.error e) :
    (contextLogin ctx w).2.1
      = { ctx with isLoading := false, error := some (reqErrMsg e) } := by
  unfold contextLogin at h ⊢
  cases h1 : loginApi w with
  | mk res1 w1 =>
    rw [h1] at h
    cases res1 with
    | error e1 =>
      simp only [Except.error.injEq] at h
      subst h
      rfl
    | ok t =>
      dsimp only at h ⊢
      cases h2 : getCurrentUser w1 with
      | mk res2 w2 =>
        rw [h2] at h
        cases res2 with
        | error e2 =>
          simp only [Except.error.injEq] at h
          subst h
          rfl
        | ok u => simp at h

theorem contextRegister_error_state (ctx : CtxState) (w : World) (e : ReqError)
    (h : (contextRegister ctx w).1 = Except.error e) :
    (contextRegister ctx w).2.1
      = { ctx with isLoading := false, error := some (reqErrMsg e) } := by
  unfold contextRegister at h ⊢
  cases h1 : registerApi w with
  | mk res1 w1 =>
    rw [h1] at h
    cases res1 with
    | error e1 =>
      simp only [Except.error.injEq] at h
      subst h
      rfl
    | ok t =>
      dsimp only at h ⊢
      cases h2 : getCurrentUser w1 with
      | mk res2 w2 =>
        rw [h2] at h
        cases res2 with
        | error e2 =>
          simp only [Except.error.injEq] at h
          subst h
          rfl
        | ok u => simp at h

/-- C5: a session-context login or register call that fails at any
stage (the current-user fetch after a successful token call included)
leaves the session state unchanged and anonymous: the user stays null,
the authenticated flag stays false, loading is reset, hasResume is
untouched, and only the error message is surfaced. -/
theorem auth_failure_leaves_session_anonymous (ctx : CtxState) (wl wr : World)
    (hu : ctx.user = none) (ha : ctx.isAuthenticated = false)
    (el er : ReqError)
    (hl : (contextLogin ctx wl).1 = Except.error el)
    (hr : (contextRegister ctx wr).1 = Except.error er) :
    ((contextLogin ctx wl).2.1.user = none
     ∧ (contextLogin ctx wl).2.1.isAuthenticated = false
     ∧ (contextLogin ctx wl).2.1.isLoading = false
     ∧ (contextLogin ctx wl).2.1.hasResume = ctx.hasResume
     ∧ (contextLogin ctx wl).2.1.error = some (reqErrMsg el))
    ∧ ((contextRegister ctx wr).2.1.user = none
     ∧ (contextRegister ctx wr).2.1.isAuthenticated = false
     ∧ (contextRegister ctx wr).2.1.isLoading = false
     ∧ (contextRegister ctx wr).2.1.hasResume = ctx.hasResume
     ∧ (contextRegister ctx wr).2.1.error = some (reqErrMsg er)) := by
  rw [contextLogin_error_state ctx wl el hl, contextRegister_error_state ctx wr er hr]
  exact ⟨⟨hu, ha, rfl, rfl, rfl⟩, ⟨hu, ha, rfl, rfl, rfl⟩⟩

/-- The anonymous initial context state. -/
def ctxAnon : CtxState :=
  { user := none, isLoading := false, error := none, hasResume := false,
    isAuthenticated := false }

/-- Login script: the token call succeeds, the current-user fetch then
fails with a 500. -/
def wlW : World :=
  { store := [],
    net := [NetResult.resp { status := 200, json := some tvW },
            NetResult.resp { status := 500, json := none }],
    calls := [] }

/-- Register script: the register call itself fails with a 400. -/
def wrW : World :=
  { store := [],
    net := [NetResult.resp
      { status := 400, json := some (Jsonv.obj [("detail", Jsonv.str "Email exists")]) }],
    calls := [] }

/-- Witness for C5: login fails at the current-user stage after storing
tokens, register fails at the first call; the context stays anonymous
both times. -/
theorem auth_failure_leaves_session_anonymous_witness :
    ctxAnon.user = none
    ∧ ctxAnon.isAuthenticated = false
    ∧ (((contextLogin ctxAnon wlW).2.1.user = none
       ∧ (contextLogin ctxAnon wlW).2.1.isAuthenticated = false
       ∧ (contextLogin ctxAnon wlW).2.1.isLoading = false
       ∧ (contextLogin ctxAnon wlW).2.1.hasResume = ctxAnon.hasResume
       ∧ (contextLogin ctxAnon wlW).2.1.error
           = some (reqErrMsg (ReqError.api 500 "Unknown error")))
      ∧ ((contextRegister ctxAnon wrW).2.1.user = none
       ∧ (contextRegister ctxAnon wrW).2.1.isAuthenticated = false
       ∧ (contextRegister ctxAnon wrW).2.1.isLoading = false
       ∧ (contextRegister ctxAnon wrW).2.1.hasResume = ctxAnon.hasResume
       ∧ (contextRegister ctxAnon wrW).2.1.error
           = some (reqErrMsg (ReqError.api 400 "Email exists")))) :=
  ⟨rfl, rfl,
   auth_failure_leaves_session_anonymous ctxAnon wlW wrW rfl rfl
     (ReqError.api 500 "Unknown error") (ReqError.api 400 "Email exists") rfl rfl⟩

/-! ### C6: uploadResume result and cache invalidation -/

theorem invUpd_key (k : QueryKey) (e : CacheEntry) : (invUpd k e).key = e.key := by
  unfold invUpd
  split <;> rfl

theorem invUpd_invalidated (k : QueryKey) (e : CacheEntry) :
    (invUpd k e).invalidated = (keyMatches k e.key || e.invalidated) := by
  unfold invUpd
  split <;> simp_all

theorem mem_invalidateQueries (k : QueryKey) (c : QueryCache) (e : CacheEntry)
    (h : e ∈ invalidateQueries k c) : ∃ e0 ∈ c, e = invUpd k e0 := by
  rcases List.mem_map.mp h with ⟨e0, he0, heq⟩
  exact ⟨e0, he0, heq.symm⟩

theorem keyMatches_head (p q : KeyPart) (key : QueryKey)
    (h : keyMatches [p, q] key = true) : keyMatches [p] key = true := by
  cases key with
  | nil => simp [keyMatches] at h
  | cons k0 ks =>
    simp only [keyMatches, Bool.and_eq_true] at h
    simp [keyMatches, h.1]

/-- After the four invalidations of `uploadOnSuccess`, any entry whose
key starts with one of the four resource-name strings is marked
invalidated. -/
theorem uploadOnSuccess_invalidates (ctx : CtxState) (c : QueryCache) (e : CacheEntry)
    (he : e ∈ (uploadOnSuccess ctx c).2)
    (res : String)
    (hres : res = "recommendations" ∨ res = "skills" ∨ res = "analysis" ∨ res = "roadmap")
    (hkey : keyMatches [KeyPart.str res] e.key = true) :
    e.invalidated = true := by
  rcases mem_invalidateQueries _ _ _ he with ⟨e3, he3, rfl⟩
  rcases mem_invalidateQueries _ _ _ he3 with ⟨e2, he2, rfl⟩
  rcases mem_invalidateQueries _ _ _ he2 with ⟨e1, he1, rfl⟩
  rcases mem_invalidateQueries _ _ _ he1 with ⟨e0, he0, rfl⟩
  simp only [invUpd_key] at hkey
  simp only [invUpd_invalidated, invUpd_key]
  rcases hres with rfl | rfl | rfl | rfl <;> simp [hkey]

/-- C6: `uploadResume` with the stream flag false against an OK response
with a JSON body resolves with exactly that body, and after the upload
mutation's onSuccess every cache entry under the `recommendations`,
`skills`, `analysis` or `roadmap` prefix — the entries of user 42 under
those prefixes in particular — is invalidated. -/
theorem uploadResume_ok_and_invalidation
    (st : Storage) (r : Response) (v : Jsonv) (rest : List NetResult)
    (hok : r.ok = true) (hj : r.json = some v)
    (ctx : CtxState) (c : QueryCache) :
    (uploadResume 42 { store := st, net := NetResult.resp r :: rest, calls := [] }).1
      = Except.ok v
    ∧ (∀ e ∈ (uploadOnSuccess ctx c).2, ∀ res : String,
        (res = "recommendations" ∨ res = "skills" ∨ res = "analysis" ∨ res = "roadmap") →
        keyMatches [KeyPart.str res, KeyPart.num 42] e.key = true →
        e.invalidated = true) := by
  constructor
  · unfold uploadResume
    simp [fetchStep, hok, hj]
  · intro e he res hres hkey
    exact uploadOnSuccess_invalidates ctx c e he res hres (keyMatches_head _ _ _ hkey)

/-- The ResumeUploadResponse body of the C6 scenario. -/
def uploadBodyW : Jsonv :=
  Jsonv.obj
    [("message", Jsonv.str "ok"), ("resume_id", Jsonv.num 7),
     ("filename", Jsonv.str "cv.pdf"),
     ("parsed_data", Jsonv.obj
       [("chunks", Jsonv.arr
          [Jsonv.obj [("section", Jsonv.str "work"), ("content", Jsonv.str "dev"),
                      ("summary", Jsonv.str "sum")]]),
        ("skills", Jsonv.arr [Jsonv.str "python"]),
        ("experience", Jsonv.arr [Jsonv.str "engineer"]),
        ("total_chunks", Jsonv.num 3)])]

/-- A concrete cache holding user 42 entries for all four resources. -/
def cacheW : QueryCache :=
  [{ key := [KeyPart.str "recommendations", KeyPart.num 42, KeyPart.json Jsonv.null],
     invalidated := false },
   { key := [KeyPart.str "skills", KeyPart.num 42], invalidated := false },
   { key := [KeyPart.str "analysis", KeyPart.num 42], invalidated := false },
   { key := [KeyPart.str "roadmap", KeyPart.num 42], invalidated := false }]

/-- Witness for C6: the scenario body round-trips and the user-42
entries of all four resources come out invalidated. -/
theorem uploadResume_ok_and_invalidation_witness :
    (uploadResume 42
        { store := stW,
          net := [NetResult.resp { status := 200, json := some uploadBodyW }],
          calls := [] }).1
      = Except.ok uploadBodyW
    ∧ (∀ e ∈ (uploadOnSuccess ctxAnon cacheW).2, ∀ res : String,
        (res = "recommendations" ∨ res = "skills" ∨ res = "analysis" ∨ res = "roadmap") →
        keyMatches [KeyPart.str res, KeyPart.num 42] e.key = true →
        e.invalidated = true) :=
  uploadResume_ok_and_invalidation stW { status := 200, json := some uploadBodyW }
    uploadBodyW [] (by decide) rfl ctxAnon cacheW

/-! ### Line reassembly: splitLines structure -/

/-- Prepend a retained remainder onto the first line of a later split:
the grafting step of concatenating two split texts. -/
def graft (r : List Char) : List (List Char) × List Char → List (List Char) × List Char
  | ([], rb) => ([], r ++ rb)
  | (l :: t, rb) => ((r ++ l) :: t, rb)

theorem graft_nil (p : List (List Char) × List Char) : graft [] p = p := by
  rcases p with ⟨ls, r⟩
  cases ls <;> simp [graft]

theorem splitLines_no_nl (s : List Char) (h : ('\n' : Char) ∉ s) :
    splitLines s = ([], s) := by
  induction s with
  | nil => rfl
  | cons c cs ih =>
    have hc : c ≠ '\n' := fun hch => h (hch ▸ List.mem_cons_self c cs)
    have hcs : ('\n' : Char) ∉ cs := fun hm => h (List.mem_cons_of_mem c hm)
    simp [splitLines, hc, ih hcs, consLine]

theorem splitLines_snd_no_nl (s : List Char) : ('\n' : Char) ∉ (splitLines s).2 := by
  induction s with
  | nil => simp [splitLines]
  | cons c cs ih =>
    by_cases hc : c = '\n'
    · simpa [splitLines, hc] using ih
    · cases hs : splitLines cs with
      | mk ls r =>
        rw [hs] at ih
        cases ls with
        | nil =>
          simp only [splitLines, if_neg hc, hs, consLine]
          intro hmem
          rcases List.mem_cons.mp hmem with hch | hm
          · exact hc hch.symm
          · exact ih hm
        | cons l t => simpa [splitLines, hc, hs, consLine] using ih

theorem splitLines_append (a b : List Char) :
    splitLines (a ++ b)
      = ((splitLines a).1 ++ (graft (splitLines a).2 (splitLines b)).1,
         (graft (splitLines a).2 (splitLines b)).2) := by
  induction a with
  | nil => simp only [List.nil_append, splitLines, graft_nil]
  | cons c a ih =>
    by_cases hc : c = '\n'
    · subst hc
      simp [splitLines, ih]
    · simp only [List.cons_append, splitLines, if_neg hc, ih]
      cases ha : splitLines a with
      | mk la ra =>
        cases la with
        | nil =>
          cases hb : splitLines b with
          | mk lb rb =>
            cases lb <;> simp [consLine, graft, ih, ha, hb]
        | cons l t => simp [consLine, graft, ih, ha]

/-! ### The read loop processes exactly the complete lines -/

theorem foldl_procChunk_eq (parse : List Char → Option Jsonv) (chunks : List (List Char)) :
    ∀ (out : StreamOut) (buf : List Char), ('\n' : Char) ∉ buf →
      chunks.foldl (procChunk parse) (out, buf)
        = ((splitLines (buf ++ chunks.flatten)).1.foldl (handleLine parse) out,
           (splitLines (buf ++ chunks.flatten)).2) := by
  induction chunks with
  | nil =>
    intro out buf hbuf
    simp [splitLines_no_nl buf hbuf]
  | cons c cs ih =>
    intro out buf hbuf
    have hsnd := splitLines_snd_no_nl (buf ++ c)
    rw [List.foldl_cons]
    have hstep : procChunk parse (out, buf) c
        = ((splitLines (buf ++ c)).1.foldl (handleLine parse) out,
           (splitLines (buf ++ c)).2) := rfl
    rw [hstep, ih _ _ hsnd]
    have hflat : buf ++ (c :: cs).flatten = (buf ++ c) ++ cs.flatten := by
      simp [List.append_assoc]
    rw [hflat, splitLines_append (buf ++ c) cs.flatten,
      splitLines_append ((splitLines (buf ++ c)).2) cs.flatten,
      splitLines_no_nl _ hsnd]
    simp [List.foldl_append]

theorem runStream_eq (parse : List Char → Option Jsonv) (chunks : List (List Char)) :
    runStream parse chunks
      = (splitLines chunks.flatten).1.foldl (handleLine parse)
          { events := [], warnings := [] } := by
  unfold runStream
  rw [foldl_procChunk_eq parse chunks { events := [], warnings := [] } [] (by simp)]
  simp

theorem splitLines_encodeLines (ls : List (List Char))
    (h : ∀ l ∈ ls, ('\n' : Char) ∉ l) :
    splitLines (encodeLines ls) = (ls, []) := by
  induction ls with
  | nil => rfl
  | cons l t ih =>
    have hl : ('\n' : Char) ∉ l := h l (List.mem_cons_self l t)
    have ht : ∀ x ∈ t, ('\n' : Char) ∉ x := fun x hx => h x (List.mem_cons_of_mem l hx)
    have henc : encodeLines (l :: t) = (l ++ ['\n']) ++ encodeLines t := by
      simp [encodeLines]
    have h1 : splitLines (l ++ ['\n']) = ([l], []) := by
      rw [splitLines_append, splitLines_no_nl l hl]
      simp [splitLines, graft]
    rw [henc, splitLines_append, h1, ih ht]
    simp [graft_nil]

theorem foldl_handleLine_good (parse : List Char → Option Jsonv) :
    ∀ (g : List (List Char)), (∀ l ∈ g, trimJs l ≠ [] ∧ (parse l).isSome) →
      ∀ out : StreamOut, g.foldl (handleLine parse) out
        = { events := out.events ++ g.filterMap parse, warnings := out.warnings } := by
  intro g
  induction g with
  | nil => intro h out; simp
  | cons l t ih =>
    intro h out
    rcases h l (List.mem_cons_self l t) with ⟨h1, h2⟩
    rcases Option.isSome_iff_exists.mp h2 with ⟨e, he⟩
    have ht : ∀ x ∈ t, trimJs x ≠ [] ∧ (parse x).isSome :=
      fun x hx => h x (List.mem_cons_of_mem l hx)
    rw [List.foldl_cons,
      show handleLine parse out l = { out with events := out.events ++ [e] } from by
        simp [handleLine, h1, he],
      ih ht]
    simp [List.filterMap_cons, he]

theorem filterMap_length_of_isSome (parse : List Char → Option Jsonv) :
    ∀ (g : List (List Char)), (∀ l ∈ g, (parse l).isSome) →
      (g.filterMap parse).length = g.length := by
  intro g
  induction g with
  | nil => intro _; rfl
  | cons l t ih =>
    intro h
    rcases Option.isSome_iff_exists.mp (h l (List.mem_cons_self l t)) with ⟨e, he⟩
    simp [List.filterMap_cons, he, ih (fun x hx => h x (List.mem_cons_of_mem l hx))]

/-! ### C2: chunked NDJSON delivery with one malformed line -/

/-- C2: for every delivery of the encoded stream in arbitrary chunk
boundaries, where the stream consists of valid lines around exactly one
malformed line, the progress callback receives exactly the parsed valid
events in stream order (N invocations for N valid lines) and the
malformed line yields no event and exactly one logged warning, without
aborting the rest of the stream. -/
theorem stream_valid_and_malformed_lines (parse : List Char → Option Jsonv)
    (good1 good2 : List (List Char)) (bad : List Char) (chunks : List (List Char))
    (hconcat : chunks.flatten = encodeLines (good1 ++ [bad] ++ good2))
    (hg : ∀ l ∈ good1 ++ good2, trimJs l ≠ [] ∧ (parse l).isSome ∧ ('\n' : Char) ∉ l)
    (hb1 : trimJs bad ≠ []) (hb2 : parse bad = none) (hb3 : ('\n' : Char) ∉ bad) :
    (runStream parse chunks).events = (good1 ++ good2).filterMap parse
    ∧ (runStream parse chunks).events.length = good1.length + good2.length
    ∧ (runStream parse chunks).warnings = [bad] := by
  have hg1 : ∀ l ∈ good1, trimJs l ≠ [] ∧ (parse l).isSome := fun l hl =>
    ⟨(hg l (List.mem_append.mpr (Or.inl hl))).1,
     (hg l (List.mem_append.mpr (Or.inl hl))).2.1⟩
  have hg2 : ∀ l ∈ good2, trimJs l ≠ [] ∧ (parse l).isSome := fun l hl =>
    ⟨(hg l (List.mem_append.mpr (Or.inr hl))).1,
     (hg l (List.mem_append.mpr (Or.inr hl))).2.1⟩
  have hall : ∀ l ∈ good1 ++ [bad] ++ good2, ('\n' : Char) ∉ l := by
    intro l hl
    rcases List.mem_append.mp hl with hl12 | hl2
    · rcases List.mem_append.mp hl12 with hl1 | hlb
      · exact (hg l (List.mem_append.mpr (Or.inl hl1))).2.2
      · rw [List.mem_singleton.mp hlb]
        exact hb3
    · exact (hg l (List.mem_append.mpr (Or.inr hl2))).2.2
  have hrun : runStream parse chunks
      = (good1 ++ [bad] ++ good2).foldl (handleLine parse)
          { events := [], warnings := [] } := by
    rw [runStream_eq, hconcat, splitLines_encodeLines _ hall]
  have hbadstep : ∀ out : StreamOut, handleLine parse out bad
      = { out with warnings := out.warnings ++ [bad] } := by
    intro out
    simp [handleLine, hb1, hb2]
  rw [hrun, List.foldl_append, List.foldl_append,
    foldl_handleLine_good parse good1 hg1, List.foldl_cons, List.foldl_nil, hbadstep,
    foldl_handleLine_good parse good2 hg2]
  refine ⟨by simp, ?_, by simp⟩
  simp [filterMap_length_of_isSome parse good1 (fun l hl => (hg1 l hl).2),
    filterMap_length_of_isSome parse good2 (fun l hl => (hg2 l hl).2)]

/-- A concrete stand-in for the host JSON.parse on the witness lines. -/
def demoParse (l : List Char) : Option Jsonv :=
  if l = "1".data then some (Jsonv.num 1)
  else if l = "2".data then some (Jsonv.num 2)
  else none

/-- Witness for C2: two valid lines around one malformed line, the
malformed line split across the two chunks. -/
theorem stream_valid_and_malformed_lines_witness :
    (runStream demoParse ["1\nx".data, "y\n2\n".data]).events = [Jsonv.num 1, Jsonv.num 2]
    ∧ (runStream demoParse ["1\nx".data, "y\n2\n".data]).events.length = 2
    ∧ (runStream demoParse ["1\nx".data, "y\n2\n".data]).warnings = ["xy".data] := by
  have h := stream_valid_and_malformed_lines demoParse ["1".data] ["2".data] "xy".data
    ["1\nx".data, "y\n2\n".data] (by decide) (by decide) (by decide) rfl (by decide)
  exact ⟨h.1.trans rfl, h.2.1.trans rfl, h.2.2⟩

/-! ### C10: a trailing fragment without a newline is discarded -/

/-- C10: when the byte stream ends, buffered text after the last
newline is dropped without a callback invocation and without a warning
(appending a newline-free trailing chunk changes nothing), and the
whole run processes exactly the newline-terminated lines. -/
theorem stream_discards_trailing_fragment (parse : List Char → Option Jsonv)
    (cs : List (List Char)) (t : List Char) (ht : ('\n' : Char) ∉ t) :
    runStream parse (cs ++ [t]) = runStream parse cs
    ∧ runStream parse cs
      = (splitLines cs.flatten).1.foldl (handleLine parse)
          { events := [], warnings := [] } := by
  refine ⟨?_, runStream_eq parse cs⟩
  rw [runStream_eq, runStream_eq]
  have hflat : (cs ++ [t]).flatten = cs.flatten ++ t := by simp
  rw [hflat, splitLines_append, splitLines_no_nl t ht]
  simp [graft]

/-- Witness for C10: one complete line followed by a dangling fragment. -/
theorem stream_discards_trailing_fragment_witness :
    runStream demoParse ["1\n".data, "tail".data] = runStream demoParse ["1\n".data]
    ∧ runStream demoParse ["1\n".data]
      = (splitLines (List.flatten ["1\n".data])).1.foldl (handleLine demoParse)
          { events := [], warnings := [] } := by
  have h := stream_discards_trailing_fragment demoParse ["1\n".data] "tail".data (by decide)
  simpa using h

end CareerCompass
